import Mathlib

/-!
Verification of the bunary-dev/examples repository.

This file shallowly embeds the example applications' handler logic:

* the `GET /items` handler of the basic-api example (pagination and
  search-parameter normalization);
* the nested-routes example's users and posts route modules (mock-array
  CRUD handlers) together with a request/response step function so that
  whole request sequences can be reasoned about;
* the query-builder contract of the ORM example.  The query builder
  itself lives in the external `@bunary/orm` package, so its execution
  semantics are modelled from the specification; the in-repo `BaseModel`
  façade (tableName guard plus ten delegating statics) is translated
  from the source.

Machine strings produced by JavaScript's `String(n)` are modelled with
`toString : Nat → String`; an injectivity proof for `Nat.repr` is
included so that distinctness of generated identifiers can be settled.
-/

/-! ## JavaScript helpers -/

/-- JavaScript `a || b` for a nullable string `a`: `null` and the empty
string are falsy, any other string is returned unchanged. -/
def jsGetOr (q : Option String) (d : String) : String :=
  match q with
  | none => d
  | some s => if s = "" then d else s

/-- JavaScript `s || null` for a string `s`: the empty string collapses
to the absent value. -/
def jsStrOrNull (s : String) : Option String :=
  if s = "" then none else some s

/-! ## basic-api: the `GET /items` handler

Translated from `src/basic-api/src/index.ts` (the `app.get("/items", ...)`
handler): `page` and `limit` are the parsed query parameters (the claim
restricts attention to requests where they parse as positive integers),
`searchQ` is the raw `search` query parameter (`none` when absent). -/

structure ApiItem where
  id : Nat
  name : String
deriving DecidableEq

structure ItemsResponse where
  page : Nat
  limit : Nat
  search : Option String
  total : Nat
  items : List ApiItem
deriving DecidableEq

/-- The `GET /items` handler body: `Array.from({length: limit}, (_, i) =>
({id: (page-1)*limit+i+1, name: ...}))` plus the response object. -/
def itemsEndpoint (page limit : Nat) (searchQ : Option String) : ItemsResponse :=
  let search := jsGetOr searchQ ""
  { page := page
    limit := limit
    search := jsStrOrNull search
    total := 100
    items := (List.range limit).map (fun i =>
      { id := (page - 1) * limit + i + 1
        name := "Item " ++ toString ((page - 1) * limit + i + 1) }) }

/-! ## nested-routes: users and posts route modules

Translated from the users routes module (`registerUserRoutes`) and the
posts routes module (`registerPostRoutes`) of the nested-routes example.
The mock arrays are the state; each handler is a pure function of the
state; `nrStep` dispatches one request exactly as the registered
handlers do. -/

structure MockUser where
  id : String
  name : String
  email : String
deriving DecidableEq

structure MockPost where
  id : String
  title : String
  authorId : String
deriving DecidableEq

/-- The initial `users` mock array of the users routes module. -/
def initialUsers : List MockUser :=
  [⟨"1", "Alice", "alice@example.com"⟩,
   ⟨"2", "Bob", "bob@example.com"⟩,
   ⟨"3", "Charlie", "charlie@example.com"⟩]

/-- The initial `posts` mock array of the posts routes module. -/
def initialPosts : List MockPost :=
  [⟨"1", "Hello World", "1"⟩,
   ⟨"2", "Getting Started with Bunary", "1"⟩,
   ⟨"3", "TypeScript Tips", "2"⟩]

/-- `GET /api/users/:id`: `users.find((u) => u.id === ctx.params.id)`. -/
def getUserHandler (users : List MockUser) (id : String) : Option MockUser :=
  users.find? (fun u => u.id == id)

/-- `POST /api/users`: builds `{id: String(users.length + 1), name, email}`
and pushes it; returns the created user and the new array. -/
def createUserHandler (users : List MockUser) (name email : String) :
    MockUser × List MockUser :=
  let newUser : MockUser := ⟨toString (users.length + 1), name, email⟩
  (newUser, users ++ [newUser])

/-- `DELETE /api/users/:id`: `findIndex` then `splice(index, 1)`.  Returns
`none` (the 404 branch) when no user matches, otherwise the removed user
and the array with that one entry removed.  `findIdx?` always returns an
index within bounds, so the inner `none` branch is never taken. -/
def deleteUserHandler (users : List MockUser) (id : String) :
    Option (MockUser × List MockUser) :=
  match users.findIdx? (fun u => u.id == id) with
  | none => none
  | some i =>
    match users[i]? with
    | none => none
    | some u => some (u, users.eraseIdx i)

/-- `GET /api/posts`: `if (authorId) { filter } else { all posts }`, where
the query parameter is truthy exactly when present and non-empty. -/
def listPostsHandler (posts : List MockPost) (authorId : Option String) :
    List MockPost :=
  match authorId with
  | none => posts
  | some a => if a = "" then posts else posts.filter (fun p => p.authorId == a)

/-- `GET /api/posts/:id`: `posts.find((p) => p.id === ctx.params.id)`. -/
def getPostHandler (posts : List MockPost) (id : String) : Option MockPost :=
  posts.find? (fun p => p.id == id)

/-- `POST /api/posts`: builds `{id: String(posts.length + 1), title,
authorId}` and pushes it. -/
def createPostHandler (posts : List MockPost) (title authorId : String) :
    MockPost × List MockPost :=
  let newPost : MockPost := ⟨toString (posts.length + 1), title, authorId⟩
  (newPost, posts ++ [newPost])

/-- A request against the nested-routes example's API surface. -/
inductive NRReq where
  | listUsers
  | getUser (id : String)
  | createUser (name email : String)
  | delUser (id : String)
  | listPosts (authorId : Option String)
  | getPost (id : String)
  | createPost (title authorId : String)
deriving DecidableEq

/-- The data carried by a nested-routes response body (status 404 is
`notFound`, status 201 is the two `created` forms). -/
inductive NRResp where
  | usersList (users : List MockUser)
  | userGot (u : MockUser)
  | userCreated (u : MockUser)
  | userDeleted (u : MockUser)
  | postsList (posts : List MockPost)
  | postGot (p : MockPost)
  | postCreated (p : MockPost)
  | notFound
deriving DecidableEq

/-- The process-local mock state of the nested-routes example. -/
structure NRState where
  users : List MockUser
  posts : List MockPost
deriving DecidableEq

/-- The state the example boots with. -/
def nrInitialState : NRState := ⟨initialUsers, initialPosts⟩

/-- Dispatch one request to the matching registered handler. -/
def nrStep (s : NRState) : NRReq → NRState × NRResp
  | NRReq.listUsers => (s, NRResp.usersList s.users)
  | NRReq.getUser id =>
    match getUserHandler s.users id with
    | none => (s, NRResp.notFound)
    | some u => (s, NRResp.userGot u)
  | NRReq.createUser name email =>
    let r := createUserHandler s.users name email
    ({ s with users := r.2 }, NRResp.userCreated r.1)
  | NRReq.delUser id =>
    match deleteUserHandler s.users id with
    | none => (s, NRResp.notFound)
    | some r => ({ s with users := r.2 }, NRResp.userDeleted r.1)
  | NRReq.listPosts authorId => (s, NRResp.postsList (listPostsHandler s.posts authorId))
  | NRReq.getPost id =>
    match getPostHandler s.posts id with
    | none => (s, NRResp.notFound)
    | some p => (s, NRResp.postGot p)
  | NRReq.createPost title authorId =>
    let r := createPostHandler s.posts title authorId
    ({ s with posts := r.2 }, NRResp.postCreated r.1)

/-- Run a request sequence, keeping only the final state. -/
def nrRun (s : NRState) : List NRReq → NRState
  | [] => s
  | r :: rs => nrRun (nrStep s r).1 rs

/-! ## Injectivity of `Nat.repr`

JavaScript `String(n)` is modelled by `toString`, which for `Nat` is
`Nat.repr`.  Distinct counters therefore yield distinct identifier
strings; this section proves that. -/

/-- Decimal value of a decimal digit character (`10` on non-digits). -/
def charVal (c : Char) : Nat :=
  if c = '0' then 0 else
  if c = '1' then 1 else
  if c = '2' then 2 else
  if c = '3' then 3 else
  if c = '4' then 4 else
  if c = '5' then 5 else
  if c = '6' then 6 else
  if c = '7' then 7 else
  if c = '8' then 8 else
  if c = '9' then 9 else
  10

/-- The decimal digit characters of `n`, most significant first; a
fuel-free restatement of `Nat.toDigits 10`. -/
def decDigits (n : Nat) : List Char :=
  if _h : n < 10 then [Nat.digitChar n]
  else decDigits (n / 10) ++ [Nat.digitChar (n % 10)]
  termination_by n
  decreasing_by exact Nat.div_lt_self (by omega) (by omega)

/-- Decode a digit string back to the number it denotes. -/
def ofDigitChars (l : List Char) : Nat :=
  l.foldl (fun a c => 10 * a + charVal c) 0


/-! ## ORM query-builder contract

Modelled from the spec: the query-builder execution semantics
(`select/exclude/where/orderBy/limit/offset/first/count/find/all` plus
protected-field and timestamp filtering) live in the external
`@bunary/orm` package, whose source is not part of this repository.
The definitions below follow the spec's data model: a query
specification accumulates selected columns (explicit allow-list or
default all), excluded columns, conjunctive predicate clauses, an
ordering clause, a limit and an offset; result rows are column-to-value
mappings with protected/timestamp columns removed after column
selection. -/

/-- A cell value: text, number, boolean, or SQL NULL. -/
inductive Value where
  | vnull
  | vbool (b : Bool)
  | vnum (n : Int)
  | vstr (s : String)
deriving DecidableEq

/-- A result row: a mapping from column name to value. -/
abbrev Row : Type := List (String × Value)

/-- Comparison operator of a predicate clause: equality is implicit when
only a value is given; explicit operators include `<` and `>`. -/
inductive ClauseOp where
  | peq
  | plt
  | pgt
deriving DecidableEq

/-- A predicate clause: column name, operator, comparison value. -/
structure Clause where
  col : String
  op : ClauseOp
  val : Value
deriving DecidableEq

/-- An accumulating query specification. -/
structure QuerySpec where
  selected : Option (List String)
  excluded : List String
  preds : List Clause
  order : Option (String × Bool)
  limitN : Option Nat
  offsetN : Option Nat
deriving DecidableEq

/-- The specification a fresh builder starts from: all columns, no
predicates, no ordering, no bounds. -/
def QuerySpec.empty : QuerySpec := ⟨none, [], [], none, none, none⟩

def QuerySpec.select (q : QuerySpec) (cols : List String) : QuerySpec :=
  { q with selected := some cols }

def QuerySpec.exclude (q : QuerySpec) (cols : List String) : QuerySpec :=
  { q with excluded := q.excluded ++ cols }

/-- `where(column, operator, value)`; the two-argument overload
`where(column, value)` is `whereOp column ClauseOp.peq value`. -/
def QuerySpec.whereOp (q : QuerySpec) (c : String) (op : ClauseOp) (v : Value) : QuerySpec :=
  { q with preds := q.preds ++ [⟨c, op, v⟩] }

/-- `orderBy(column, direction)`; `asc = true` is the ascending default. -/
def QuerySpec.orderBy (q : QuerySpec) (c : String) (asc : Bool) : QuerySpec :=
  { q with order := some (c, asc) }

def QuerySpec.limit (q : QuerySpec) (n : Nat) : QuerySpec :=
  { q with limitN := some n }

def QuerySpec.offset (q : QuerySpec) (n : Nat) : QuerySpec :=
  { q with offsetN := some n }

/-- A model's column-visibility policy: protected columns are always
stripped from result rows, and with `timestamps := true` the timestamp
columns are stripped as well.  The `Users` model of the ORM example
declares `protected = ["password", "secret_key"]` and `timestamps =
true`. -/
structure ColumnPolicy where
  protectedCols : List String
  timestamps : Bool
deriving DecidableEq

/-- The policy declared by `src/basic-orm/src/models/Users.ts`. -/
def usersPolicy : ColumnPolicy := ⟨["password", "secret_key"], true⟩

/-- The timestamp columns suppressed when `timestamps = true`. -/
def timestampCols : List String := ["createdAt", "updatedAt"]

/-- Value of column `c` in row `r`, when present. -/
def rowLookup (r : Row) (c : String) : Option Value :=
  (List.find? (fun kv => kv.fst == c) r).map (fun kv => kv.snd)

/-- A total strict order on values (NULL < booleans < numbers < text),
used for ORDER BY. -/
def valueLt : Value → Value → Bool
  | Value.vnull, Value.vnull => false
  | Value.vnull, _ => true
  | Value.vbool _, Value.vnull => false
  | Value.vbool a, Value.vbool b => !a && b
  | Value.vbool _, _ => true
  | Value.vnum _, Value.vnull => false
  | Value.vnum _, Value.vbool _ => false
  | Value.vnum a, Value.vnum b => a < b
  | Value.vnum _, Value.vstr _ => true
  | Value.vstr a, Value.vstr b => a < b
  | Value.vstr _, _ => false

/-- Evaluate one predicate clause on a row. -/
def evalPred (r : Row) (p : Clause) : Bool :=
  match p.op with
  | ClauseOp.peq => rowLookup r p.col == some p.val
  | ClauseOp.plt =>
    match rowLookup r p.col with
    | some w => valueLt w p.val
    | none => false
  | ClauseOp.pgt =>
    match rowLookup r p.col with
    | some w => valueLt p.val w
    | none => false

/-- Row comparison for ORDER BY on column `c` (missing columns compare
as NULL); `asc = false` flips the direction. -/
def rowLe (c : String) (asc : Bool) (r1 r2 : Row) : Bool :=
  let v1 := (rowLookup r1 c).getD Value.vnull
  let v2 := (rowLookup r2 c).getD Value.vnull
  if asc then !valueLt v2 v1 else !valueLt v1 v2

/-- Insertion step of the stable insertion sort used for ORDER BY. -/
def insertLe (le : Row → Row → Bool) (x : Row) : List Row → List Row
  | [] => [x]
  | y :: ys => if le x y then x :: y :: ys else y :: insertLe le x ys

/-- Stable insertion sort. -/
def sortRows (le : Row → Row → Bool) : List Row → List Row
  | [] => []
  | x :: xs => insertLe le x (sortRows le xs)

/-- Column selection: narrow to the allow-list when one was given, then
drop excluded columns. -/
def projectRow (sel : Option (List String)) (excl : List String) (r : Row) : Row :=
  let afterSel : Row :=
    match sel with
    | none => r
    | some cols => List.filter (fun kv => cols.contains kv.fst) r
  List.filter (fun kv => !excl.contains kv.fst) afterSel

/-- Column policy enforcement: protected columns, and timestamp columns
when the flag is set, are removed from a result row. -/
def protectRow (pol : ColumnPolicy) (r : Row) : Row :=
  let afterProt : Row := List.filter (fun kv => !pol.protectedCols.contains kv.fst) r
  if pol.timestamps then
    List.filter (fun kv => !timestampCols.contains kv.fst) afterProt
  else afterProt

/-- Per-row result filtering: protection is applied to result rows after
column selection, not before. -/
def filterResultRow (pol : ColumnPolicy) (q : QuerySpec) (r : Row) : Row :=
  protectRow pol (projectRow q.selected q.excluded r)

/-- `all()`: every row matching the accumulated predicates, ordered,
offset, limited, and each filtered for protected/timestamp columns. -/
def executeAll (pol : ColumnPolicy) (rows : List Row) (q : QuerySpec) : List Row :=
  let matched := rows.filter (fun r => q.preds.all (evalPred r))
  let ordered :=
    match q.order with
    | none => matched
    | some (c, asc) => sortRows (rowLe c asc) matched
  let offs := ordered.drop (q.offsetN.getD 0)
  let limited :=
    match q.limitN with
    | none => offs
    | some n => offs.take n
  limited.map (filterResultRow pol q)

/-- `find(id)`: look up one row by primary key; the filtered row, or an
absence value (never an error) when no row matches. -/
def findRow (pol : ColumnPolicy) (rows : List Row) (idv : Value) : Option Row :=
  (List.find? (fun r => rowLookup r "id" == some idv) rows).map (protectRow pol)

/-- `first()`: `limit(1)` then the sole row or absence. -/
def firstRow (pol : ColumnPolicy) (rows : List Row) (q : QuerySpec) : Option Row :=
  (executeAll pol rows (q.limit 1)).head?

/-- `count()`: the number of matching rows, ignoring `select`/`exclude`
but honoring predicates. -/
def countRows (rows : List Row) (q : QuerySpec) : Nat :=
  (rows.filter (fun r => q.preds.all (evalPred r))).length

/-! ## In-repo `BaseModel` façade

Translated from the `BaseModel` class shipped with the basic-orm
example: `query()` throws unless `this.tableName` is truthy (in
JavaScript both an undefined and an empty-string `tableName` are
falsy), and each of the ten statics calls `query()` first and then
delegates to the external builder. -/

/-- `BaseModel.query()`: `if (!this.tableName) throw ...; return
Model.table(this.tableName)`.  `none` models a subclass that never set
the field. -/
def bmQuery (tableName : Option String) : Except String String :=
  match tableName with
  | none => Except.error "Model must define a tableName property"
  | some t =>
    if t = "" then Except.error "Model must define a tableName property"
    else Except.ok t

/-- A database assigning a list of rows to every table name. -/
def Db : Type := String → List Row

def bmFind (tn : Option String) (db : Db) (pol : ColumnPolicy) (idv : Value) :
    Except String (Option Row) :=
  (bmQuery tn).map (fun t => findRow pol (db t) idv)

def bmAll (tn : Option String) (db : Db) (pol : ColumnPolicy) :
    Except String (List Row) :=
  (bmQuery tn).map (fun t => executeAll pol (db t) QuerySpec.empty)

def bmSelect (tn : Option String) (cols : List String) : Except String QuerySpec :=
  (bmQuery tn).map (fun _t => QuerySpec.empty.select cols)

def bmExclude (tn : Option String) (cols : List String) : Except String QuerySpec :=
  (bmQuery tn).map (fun _t => QuerySpec.empty.exclude cols)

def bmWhere (tn : Option String) (c : String) (op : ClauseOp) (v : Value) :
    Except String QuerySpec :=
  (bmQuery tn).map (fun _t => QuerySpec.empty.whereOp c op v)

def bmLimit (tn : Option String) (n : Nat) : Except String QuerySpec :=
  (bmQuery tn).map (fun _t => QuerySpec.empty.limit n)

def bmOffset (tn : Option String) (n : Nat) : Except String QuerySpec :=
  (bmQuery tn).map (fun _t => QuerySpec.empty.offset n)

def bmOrderBy (tn : Option String) (c : String) (asc : Bool) : Except String QuerySpec :=
  (bmQuery tn).map (fun _t => QuerySpec.empty.orderBy c asc)

def bmFirst (tn : Option String) (db : Db) (pol : ColumnPolicy) :
    Except String (Option Row) :=
  (bmQuery tn).map (fun t => firstRow pol (db t) QuerySpec.empty)

def bmCount (tn : Option String) (db : Db) : Except String Nat :=
  (bmQuery tn).map (fun t => countRows (db t) QuerySpec.empty)

/-- Whether an `Except` took the error branch. -/
def isError {ε α : Type} : Except ε α → Bool
  | Except.error _ => true
  | Except.ok _ => false

/-! ## Digit-string lemmas -/

theorem toDigitsCore_eq_decDigits :
    ∀ (fuel n : Nat) (ds : List Char), n < fuel →
      Nat.toDigitsCore 10 fuel n ds = decDigits n ++ ds := by
  intro fuel
  induction fuel with
  | zero => intro n ds h; omega
  | succ f ih =>
    intro n ds h
    by_cases h0 : n / 10 = 0
    · have hn : n < 10 := by omega
      rw [decDigits]
      simp only [Nat.toDigitsCore, h0, if_true, hn, dif_pos]
      have : n % 10 = n := Nat.mod_eq_of_lt hn
      simp [this]
    · have hn : ¬ n < 10 := by omega
      have hlt : n / 10 < f := by
        have : n / 10 < n := Nat.div_lt_self (by omega) (by omega)
        omega
      rw [decDigits]
      simp only [Nat.toDigitsCore, h0, if_false, hn, dif_neg]
      rw [ih (n / 10) (Nat.digitChar (n % 10) :: ds) hlt]
      simp

theorem toDigits_eq_decDigits (n : Nat) : Nat.toDigits 10 n = decDigits n := by
  rw [Nat.toDigits, toDigitsCore_eq_decDigits (n + 1) n [] (by omega)]
  simp

theorem charVal_digitChar (m : Nat) (h : m < 10) :
    charVal (Nat.digitChar m) = m := by
  interval_cases m <;> rfl

theorem ofDigitChars_decDigits (n : Nat) : ofDigitChars (decDigits n) = n := by
  induction n using Nat.strong_induction_on with
  | _ n ih =>
    by_cases h : n < 10
    · rw [decDigits, dif_pos h]
      simp [ofDigitChars, charVal_digitChar n h]
    · rw [decDigits, dif_neg h]
      have h1 : n / 10 < n := Nat.div_lt_self (by omega) (by omega)
      have h2 : ofDigitChars (decDigits (n / 10) ++ [Nat.digitChar (n % 10)]) =
          10 * ofDigitChars (decDigits (n / 10)) + charVal (Nat.digitChar (n % 10)) := by
        simp [ofDigitChars, List.foldl_append]
      rw [h2, ih (n / 10) h1, charVal_digitChar (n % 10) (by omega)]
      omega

theorem natRepr_injective {a b : Nat} (h : Nat.repr a = Nat.repr b) : a = b := by
  have hdata : Nat.toDigits 10 a = Nat.toDigits 10 b := by
    have := congrArg String.data h
    simpa [Nat.repr, List.asString] using this
  rw [toDigits_eq_decDigits, toDigits_eq_decDigits] at hdata
  have := congrArg ofDigitChars hdata
  simpa [ofDigitChars_decDigits] using this

theorem natToString_injective {a b : Nat} (h : toString a = toString b) : a = b :=
  natRepr_injective h


/-! ## Claim theorems -/

/-- C2: for every `GET /items` request whose `page=p` and `limit=l` query
parameters parse as positive integers, the handler returns exactly `l`
items whose ids are the consecutive integers `(p-1)*l + 1` through
`(p-1)*l + l`, in that order. -/
theorem items_pagination (p l : Nat) (hp : 0 < p) (hl : 0 < l) (sq : Option String) :
    (itemsEndpoint p l sq).items.length = l ∧
    (itemsEndpoint p l sq).items.map (fun it => it.id) =
      List.range' ((p - 1) * l + 1) l := by
  refine ⟨by simp [itemsEndpoint], ?_⟩
  simp only [itemsEndpoint, List.map_map, List.range'_eq_map_range]
  exact List.map_congr_left (fun i _ => by simp [Function.comp]; omega)

theorem items_pagination_witness :
    0 < 2 ∧ 0 < 5 ∧
    ((itemsEndpoint 2 5 none).items.length = 5 ∧
     (itemsEndpoint 2 5 none).items.map (fun it => it.id) = List.range' 6 5) :=
  ⟨by decide, by decide, items_pagination 2 5 (by decide) (by decide) none⟩

/-- C3: in the `GET /items` response, a `search` query parameter present
but equal to the empty string yields a `null` (absent) `search` field,
and a non-empty `search=s` yields exactly `s`. -/
theorem items_search_normalization (p l : Nat) :
    (itemsEndpoint p l (some "")).search = none ∧
    ∀ s : String, s ≠ "" → (itemsEndpoint p l (some s)).search = some s := by
  refine ⟨rfl, ?_⟩
  intro s hs
  simp [itemsEndpoint, jsGetOr, jsStrOrNull, hs]

theorem items_search_normalization_witness :
    "test" ≠ "" ∧ (itemsEndpoint 1 10 (some "test")).search = some "test" :=
  ⟨by decide, (items_search_normalization 1 10).2 "test" (by decide)⟩

/-- C8: `first()` on an accumulated query specification returns the same
result as executing the specification with `limit(1)` via `all()` and
taking the sole row of a non-empty result, or absence on an empty one. -/
theorem first_is_limit_one_then_head (pol : ColumnPolicy) (rows : List Row)
    (q : QuerySpec) :
    firstRow pol rows q =
      match executeAll pol rows (q.limit 1) with
      | [] => none
      | r :: _ => some r := by
  rw [firstRow]
  cases executeAll pol rows (q.limit 1) <;> rfl

/-- C9: a `GET /api/posts` request whose `authorId` query parameter is
present but empty returns the complete unfiltered posts list, identical
to omitting the parameter. -/
theorem posts_empty_author_unfiltered (posts : List MockPost) :
    listPostsHandler posts (some "") = posts ∧
    listPostsHandler posts (some "") = listPostsHandler posts none := by
  exact ⟨rfl, rfl⟩

/-- C10: a `DELETE /api/users/:id` request whose id matches no entry
returns the 404 response and leaves the users array entirely unchanged. -/
theorem delete_nonexistent_is_404 (users : List MockUser) (ps : List MockPost)
    (x : String) (h : ∀ u ∈ users, u.id ≠ x) :
    nrStep ⟨users, ps⟩ (NRReq.delUser x) = (⟨users, ps⟩, NRResp.notFound) := by
  have hidx : users.findIdx? (fun u => u.id == x) = none := by
    rw [List.findIdx?_eq_none_iff]
    intro u hu
    simpa using h u hu
  simp [nrStep, deleteUserHandler, hidx]

theorem delete_nonexistent_is_404_witness :
    (∀ u ∈ initialUsers, u.id ≠ "9") ∧
    nrStep ⟨initialUsers, initialPosts⟩ (NRReq.delUser "9") =
      (⟨initialUsers, initialPosts⟩, NRResp.notFound) :=
  ⟨by decide, delete_nonexistent_is_404 initialUsers initialPosts "9" (by decide)⟩

/-- Everything surviving `protectRow` has a column name outside the
policy's protected set. -/
theorem protectRow_not_protected {pol : ColumnPolicy} {r : Row}
    {kv : String × Value} (h : kv ∈ protectRow pol r) :
    pol.protectedCols.contains kv.fst = false := by
  unfold protectRow at h
  by_cases ht : pol.timestamps
  · simp only [ht, if_true] at h
    have h2 := (List.mem_filter.mp h).1
    simpa using (List.mem_filter.mp h2).2
  · simp only [ht, if_false] at h
    simpa using (List.mem_filter.mp h).2

/-- C1: with the `Users` policy (`protected = ["password","secret_key"]`),
no result row of `all()` under any accumulated specification — including
one whose `select` explicitly lists those columns — and no row returned
by `find(id)` contains a `password` or `secret_key` key; protection is
applied to result rows after column selection. -/
theorem protected_fields_never_surfaced (rows : List Row) (q : QuerySpec)
    (idv : Value) :
    (∀ r ∈ executeAll usersPolicy rows q, ∀ kv ∈ r,
       kv.fst ≠ "password" ∧ kv.fst ≠ "secret_key") ∧
    (∀ r, findRow usersPolicy rows idv = some r → ∀ kv ∈ r,
       kv.fst ≠ "password" ∧ kv.fst ≠ "secret_key") := by
  constructor
  · intro r hr kv hkv
    unfold executeAll at hr
    obtain ⟨r0, _, rfl⟩ := List.mem_map.mp hr
    have hc := @protectRow_not_protected usersPolicy _ _ hkv
    simpa [usersPolicy] using hc
  · intro r hr kv hkv
    obtain ⟨r0, _, rfl⟩ := Option.map_eq_some'.mp hr
    have hc := @protectRow_not_protected usersPolicy _ _ hkv
    simpa [usersPolicy] using hc

theorem protected_fields_never_surfaced_witness :
    (([("id", Value.vnum 1)] : Row) ∈
       executeAll usersPolicy
         [[("id", Value.vnum 1), ("password", Value.vstr "p"),
           ("secret_key", Value.vstr "k")]]
         (QuerySpec.empty.select ["id", "password", "secret_key"])) ∧
    (("id", Value.vnum 1) ∈ ([("id", Value.vnum 1)] : Row)) ∧
    (("id", Value.vnum 1).fst ≠ "password" ∧
     ("id", Value.vnum 1).fst ≠ "secret_key") :=
  ⟨by decide, by decide,
   (protected_fields_never_surfaced
     [[("id", Value.vnum 1), ("password", Value.vstr "p"),
       ("secret_key", Value.vstr "k")]]
     (QuerySpec.empty.select ["id", "password", "secret_key"])
     Value.vnull).1 [("id", Value.vnum 1)] (by decide)
     ("id", Value.vnum 1) (by decide)⟩

/-- C7: `find(id)` returns the single filtered row whose primary key
equals `id` when such a row exists (uniqueness of the primary key given),
and the absence value `none` — by construction an `Option`, never an
error — when no row matches. -/
theorem find_filtered_row_or_absence (pol : ColumnPolicy) (rows : List Row)
    (idv : Value) :
    (∀ r ∈ rows, rowLookup r "id" = some idv →
       (∀ r2 ∈ rows, rowLookup r2 "id" = some idv → r2 = r) →
       findRow pol rows idv = some (protectRow pol r)) ∧
    ((∀ r ∈ rows, rowLookup r "id" ≠ some idv) →
       findRow pol rows idv = none) := by
  constructor
  · intro r hr hid huniq
    have hex : ∃ x, x ∈ rows ∧ (rowLookup x "id" == some idv) = true :=
      ⟨r, hr, by simp [hid]⟩
    have hsome := List.find?_isSome.mpr hex
    obtain ⟨b, hb⟩ := Option.isSome_iff_exists.mp hsome
    have hbmem := List.mem_of_find?_eq_some hb
    have hbp := List.find?_some hb
    have hbr : b = r := huniq b hbmem (by simpa using hbp)
    rw [findRow, hb, hbr]
    rfl
  · intro habs
    have hnone : List.find? (fun r => rowLookup r "id" == some idv) rows = none := by
      rw [List.find?_eq_none]
      intro r hr
      simpa using habs r hr
    rw [findRow, hnone]
    rfl

theorem find_filtered_row_or_absence_witness :
    (([("id", Value.vnum 1), ("password", Value.vstr "p")] : Row) ∈
       ([[("id", Value.vnum 1), ("password", Value.vstr "p")]] : List Row)) ∧
    findRow usersPolicy [[("id", Value.vnum 1), ("password", Value.vstr "p")]]
        (Value.vnum 1) =
      some (protectRow usersPolicy [("id", Value.vnum 1), ("password", Value.vstr "p")]) :=
  ⟨by decide,
   (find_filtered_row_or_absence usersPolicy
     [[("id", Value.vnum 1), ("password", Value.vstr "p")]] (Value.vnum 1)).1
     [("id", Value.vnum 1), ("password", Value.vstr "p")] (by decide) (by decide)
     (by decide)⟩

/-- C6 counterexample: the subclass guard tests JavaScript truthiness,
not definedness, so a subclass that does define `tableName` — as the
empty string — still takes the error branch on a query-initiating call. -/
theorem basemodel_defined_tablename_still_errors :
    isError (bmFind (some "") (fun _ => []) usersPolicy (Value.vnum 1)) = true := rfl

/-- C6 (amended): a subclass that never sets `tableName` defines fine
but every one of the ten query-initiating statics (`find`, `all`,
`select`, `exclude`, `where`, `limit`, `offset`, `orderBy`, `first`,
`count`) fails with the tableName error; a subclass with a non-empty
`tableName` never takes this error branch. -/
theorem basemodel_tablename_guard (db : Db) (pol : ColumnPolicy) (idv : Value)
    (cols : List String) (c : String) (op : ClauseOp) (v : Value) (n : Nat)
    (asc : Bool) :
    (isError (bmFind none db pol idv) = true ∧
     isError (bmAll none db pol) = true ∧
     isError (bmSelect none cols) = true ∧
     isError (bmExclude none cols) = true ∧
     isError (bmWhere none c op v) = true ∧
     isError (bmLimit none n) = true ∧
     isError (bmOffset none n) = true ∧
     isError (bmOrderBy none c asc) = true ∧
     isError (bmFirst none db pol) = true ∧
     isError (bmCount none db) = true) ∧
    (∀ t : String, t ≠ "" →
      isError (bmFind (some t) db pol idv) = false ∧
      isError (bmAll (some t) db pol) = false ∧
      isError (bmSelect (some t) cols) = false ∧
      isError (bmExclude (some t) cols) = false ∧
      isError (bmWhere (some t) c op v) = false ∧
      isError (bmLimit (some t) n) = false ∧
      isError (bmOffset (some t) n) = false ∧
      isError (bmOrderBy (some t) c asc) = false ∧
      isError (bmFirst (some t) db pol) = false ∧
      isError (bmCount (some t) db) = false) := by
  constructor
  · exact ⟨rfl, rfl, rfl, rfl, rfl, rfl, rfl, rfl, rfl, rfl⟩
  · intro t ht
    have hq : bmQuery (some t) = Except.ok t := by
      simp [bmQuery, ht]
    simp [bmFind, bmAll, bmSelect, bmExclude, bmWhere, bmLimit, bmOffset,
      bmOrderBy, bmFirst, bmCount, hq, Except.map, isError]

/-- A step that is not a users-DELETE never shrinks the users array. -/
theorem users_length_mono_step (s : NRState) (r : NRReq)
    (h : ∀ id, r ≠ NRReq.delUser id) :
    s.users.length ≤ (nrStep s r).1.users.length := by
  cases r with
  | listUsers => simp [nrStep]
  | getUser id => cases hg : getUserHandler s.users id <;> simp [nrStep, hg]
  | createUser nm em => simp [nrStep, createUserHandler]
  | delUser id => exact absurd rfl (h id)
  | listPosts a => simp [nrStep]
  | getPost id => cases hg : getPostHandler s.posts id <;> simp [nrStep, hg]
  | createPost t a => simp [nrStep, createPostHandler]

/-- Over a request sequence with no users-DELETE, the users array never
shrinks. -/
theorem users_length_mono_run (s : NRState) (rs : List NRReq)
    (h : ∀ r ∈ rs, ∀ id, r ≠ NRReq.delUser id) :
    s.users.length ≤ (nrRun s rs).users.length := by
  induction rs generalizing s with
  | nil => simp [nrRun]
  | cons r rs ih =>
    have h1 := users_length_mono_step s r (h r (List.mem_cons_self r rs))
    have h2 := ih (nrStep s r).1 (fun r2 hr2 => h r2 (List.mem_cons_of_mem r hr2))
    calc s.users.length ≤ (nrStep s r).1.users.length := h1
      _ ≤ (nrRun (nrStep s r).1 rs).users.length := h2

/-- No route ever shrinks the posts array (there is no posts-DELETE). -/
theorem posts_length_mono_step (s : NRState) (r : NRReq) :
    s.posts.length ≤ (nrStep s r).1.posts.length := by
  cases r with
  | listUsers => simp [nrStep]
  | getUser id => cases hg : getUserHandler s.users id <;> simp [nrStep, hg]
  | createUser nm em => simp [nrStep]
  | delUser id =>
    cases hd : deleteUserHandler s.users id with
    | none => simp [nrStep, hd]
    | some p => simp [nrStep, hd]
  | listPosts a => simp [nrStep]
  | getPost id => cases hg : getPostHandler s.posts id <;> simp [nrStep, hg]
  | createPost t a => simp [nrStep, createPostHandler]

theorem posts_length_mono_run (s : NRState) (rs : List NRReq) :
    s.posts.length ≤ (nrRun s rs).posts.length := by
  induction rs generalizing s with
  | nil => simp [nrRun]
  | cons r rs ih =>
    calc s.posts.length ≤ (nrStep s r).1.posts.length := posts_length_mono_step s r
      _ ≤ (nrRun (nrStep s r).1 rs).posts.length := ih (nrStep s r).1

/-- A successful users-DELETE splits the array around the first matching
entry: everything before it has a different id, and exactly that one
entry is removed. -/
theorem deleteUserHandler_spec :
    ∀ (users : List MockUser) (x : String) (u : MockUser)
      (users2 : List MockUser),
      deleteUserHandler users x = some (u, users2) →
      ∃ pre post, users = pre ++ u :: post ∧ users2 = pre ++ post ∧
        u.id = x ∧ ∀ v ∈ pre, v.id ≠ x := by
  intro users
  induction users with
  | nil =>
    intro x u users2 h
    simp [deleteUserHandler] at h
  | cons a rest ih =>
    intro x u users2 h
    by_cases ha : a.id = x
    · rw [deleteUserHandler, List.findIdx?_cons] at h
      simp only [ha, beq_self_eq_true, if_true, List.getElem?_cons_zero,
        List.eraseIdx_cons_zero, Option.some.injEq, Prod.mk.injEq] at h
      obtain ⟨rfl, rfl⟩ := h
      exact ⟨[], rest, rfl, rfl, ha, by simp⟩
    · rw [deleteUserHandler, List.findIdx?_cons] at h
      have hpa : (a.id == x) = false := by simp [ha]
      rw [hpa] at h
      simp only [Bool.false_eq_true, if_false] at h
      rw [List.findIdx?_succ] at h
      cases hr : rest.findIdx? (fun v => v.id == x) with
      | none =>
        rw [hr] at h
        simp at h
      | some j =>
        rw [hr] at h
        simp only [Option.map_some', List.getElem?_cons_succ,
          List.eraseIdx_cons_succ] at h
        cases hg : rest[j]? with
        | none =>
          rw [hg] at h
          simp at h
        | some w =>
          rw [hg] at h
          simp only [Option.some.injEq, Prod.mk.injEq] at h
          obtain ⟨rfl, rfl⟩ := h
          have hrec : deleteUserHandler rest x = some (w, rest.eraseIdx j) := by
            rw [deleteUserHandler, hr]
            simp [hg]
          obtain ⟨pre, post, e1, e2, e3, e4⟩ := ih x w _ hrec
          refine ⟨a :: pre, post, by simp [e1], by simp [e2], e3, ?_⟩
          intro v hv
          rcases List.mem_cons.mp hv with rfl | hv2
          · exact ha
          · exact e4 v hv2

/-- Any step other than a users-create preserves absence of an id from
the users array. -/
theorem users_absent_step (s : NRState) (r : NRReq) (x : String)
    (hnc : ∀ nm em, r ≠ NRReq.createUser nm em)
    (h : ∀ v ∈ s.users, v.id ≠ x) :
    ∀ v ∈ (nrStep s r).1.users, v.id ≠ x := by
  cases r with
  | listUsers => simpa [nrStep] using h
  | getUser id => cases hg : getUserHandler s.users id <;> simpa [nrStep, hg] using h
  | createUser nm em => exact absurd rfl (hnc nm em)
  | delUser id =>
    cases hd : deleteUserHandler s.users id with
    | none => simpa [nrStep, hd] using h
    | some p =>
      obtain ⟨pre, post, e1, e2, _, _⟩ :=
        deleteUserHandler_spec s.users id p.1 p.2 (by rw [hd])
      intro v hv
      simp only [nrStep, hd] at hv
      apply h
      rw [e1]
      rw [e2] at hv
      rcases List.mem_append.mp hv with h1 | h1
      · exact List.mem_append.mpr (Or.inl h1)
      · exact List.mem_append.mpr (Or.inr (List.mem_cons_of_mem _ h1))
  | listPosts a => simpa [nrStep] using h
  | getPost id => cases hg : getPostHandler s.posts id <;> simpa [nrStep, hg] using h
  | createPost t a => simpa [nrStep, createPostHandler] using h

/-- Over a create-free request sequence, absence of an id from the users
array is preserved. -/
theorem users_absent_run (s : NRState) (rs : List NRReq) (x : String)
    (hnc : ∀ r ∈ rs, ∀ nm em, r ≠ NRReq.createUser nm em)
    (h : ∀ v ∈ s.users, v.id ≠ x) :
    ∀ v ∈ (nrRun s rs).users, v.id ≠ x := by
  induction rs generalizing s with
  | nil => simpa [nrRun] using h
  | cons r rs ih =>
    simp only [nrRun]
    exact ih (nrStep s r).1 (fun r2 h2 => hnc r2 (List.mem_cons_of_mem r h2))
      (users_absent_step s r x (hnc r (List.mem_cons_self r rs)) h)

/-- C4 counterexample: two `POST /api/users` requests with identical
bodies, separated by a successful `DELETE`, both generate id `"4"` —
`String(users.length + 1)` reuses lengths freed by deletions, so the
two responses do not carry distinct identifiers. -/
theorem create_ids_collide_after_delete :
    (nrStep nrInitialState (NRReq.createUser "Dave" "dave@example.com")).2 =
      NRResp.userCreated ⟨"4", "Dave", "dave@example.com"⟩ ∧
    (nrStep (nrStep (nrStep nrInitialState
        (NRReq.createUser "Dave" "dave@example.com")).1
        (NRReq.delUser "4")).1
        (NRReq.createUser "Dave" "dave@example.com")).2 =
      NRResp.userCreated ⟨"4", "Dave", "dave@example.com"⟩ := by
  constructor <;> decide

/-- C4 (amended): two creates with identical bodies carry distinct
generated identifiers provided no users-DELETE request is processed
between them; for `POST /api/posts` (which has no delete route) any two
creates in any request sequence yield distinct identifiers.  The
`POST /resources` endpoint of basic-api delegates id generation to
`crypto.randomUUID()`, outside this deterministic model. -/
theorem create_ids_distinct_without_delete (s : NRState) (nm em t a : String)
    (mid mid2 : List NRReq)
    (hmid : ∀ r ∈ mid, ∀ id, r ≠ NRReq.delUser id) :
    (∀ u1 u2 : MockUser,
       (nrStep s (NRReq.createUser nm em)).2 = NRResp.userCreated u1 →
       (nrStep (nrRun (nrStep s (NRReq.createUser nm em)).1 mid)
          (NRReq.createUser nm em)).2 = NRResp.userCreated u2 →
       u1.id ≠ u2.id) ∧
    (∀ p1 p2 : MockPost,
       (nrStep s (NRReq.createPost t a)).2 = NRResp.postCreated p1 →
       (nrStep (nrRun (nrStep s (NRReq.createPost t a)).1 mid2)
          (NRReq.createPost t a)).2 = NRResp.postCreated p2 →
       p1.id ≠ p2.id) := by
  constructor
  · intro u1 u2 h1 h2 heq
    simp only [nrStep, createUserHandler, NRResp.userCreated.injEq] at h1 h2
    have hid1 : u1.id = toString (s.users.length + 1) := by rw [← h1]
    have hlen1 : (nrStep s (NRReq.createUser nm em)).1.users.length =
        s.users.length + 1 := by
      simp [nrStep, createUserHandler]
    have hmono := users_length_mono_run (nrStep s (NRReq.createUser nm em)).1 mid hmid
    have hid2 : u2.id =
        toString ((nrRun (nrStep s (NRReq.createUser nm em)).1 mid).users.length + 1) := by
      rw [← h2]
      simp [nrStep, createUserHandler]
    have hnat := natToString_injective (hid1 ▸ hid2 ▸ heq)
    omega
  · intro p1 p2 h1 h2 heq
    simp only [nrStep, createPostHandler, NRResp.postCreated.injEq] at h1 h2
    have hid1 : p1.id = toString (s.posts.length + 1) := by rw [← h1]
    have hlen1 : (nrStep s (NRReq.createPost t a)).1.posts.length =
        s.posts.length + 1 := by
      simp [nrStep, createPostHandler]
    have hmono := posts_length_mono_run (nrStep s (NRReq.createPost t a)).1 mid2
    have hid2 : p2.id =
        toString ((nrRun (nrStep s (NRReq.createPost t a)).1 mid2).posts.length + 1) := by
      rw [← h2]
      simp [nrStep, createPostHandler]
    have hnat := natToString_injective (hid1 ▸ hid2 ▸ heq)
    omega

theorem create_ids_distinct_without_delete_witness :
    (∀ r ∈ [NRReq.listUsers], ∀ id, r ≠ NRReq.delUser id) ∧
    (⟨"4", "X", "x@example.com"⟩ : MockUser).id ≠
      (⟨"5", "X", "x@example.com"⟩ : MockUser).id :=
  ⟨fun r hr id => by simp at hr; subst hr; exact fun h => NRReq.noConfusion h,
   (create_ids_distinct_without_delete nrInitialState "X" "x@example.com"
      "T" "1" [NRReq.listUsers] []
      (fun r hr id => by simp at hr; subst hr; exact fun h => NRReq.noConfusion h)).1
      ⟨"4", "X", "x@example.com"⟩ ⟨"5", "X", "x@example.com"⟩
      (by decide) (by decide)⟩

/-- C5 counterexample: create (id `"4"`), successfully delete `"4"`,
create again — the new entry reuses id `"4"`, so a subsequent GET list
request returns a list that does contain an entry with the deleted id. -/
theorem deleted_id_reappears_in_list :
    (nrStep nrInitialState (NRReq.createUser "Dave" "dave@example.com")).2 =
      NRResp.userCreated ⟨"4", "Dave", "dave@example.com"⟩ ∧
    (nrStep (nrStep nrInitialState
        (NRReq.createUser "Dave" "dave@example.com")).1
        (NRReq.delUser "4")).2 =
      NRResp.userDeleted ⟨"4", "Dave", "dave@example.com"⟩ ∧
    (nrStep (nrStep (nrStep (nrStep nrInitialState
        (NRReq.createUser "Dave" "dave@example.com")).1
        (NRReq.delUser "4")).1
        (NRReq.createUser "Eve" "eve@example.com")).1
        NRReq.listUsers).2 =
      NRResp.usersList
        [⟨"1", "Alice", "alice@example.com"⟩,
         ⟨"2", "Bob", "bob@example.com"⟩,
         ⟨"3", "Charlie", "charlie@example.com"⟩,
         ⟨"4", "Eve", "eve@example.com"⟩] := by
  refine ⟨by decide, by decide, by decide⟩

/-- C5 (amended): a successful `DELETE /api/users/:id` removes exactly
the first entry whose id matches, leaving all other entries in place;
when the id occurred at most once, the resulting array has no entry
with that id, and every subsequent GET list request issued before any
later create returns a list (exactly the current array) containing no
entry with the deleted id. -/
theorem delete_removes_first_match (users : List MockUser) (x : String)
    (u : MockUser) (users2 : List MockUser) (ps : List MockPost)
    (hdel : deleteUserHandler users x = some (u, users2)) :
    (∃ pre post, users = pre ++ u :: post ∧ users2 = pre ++ post ∧
       u.id = x ∧ ∀ v ∈ pre, v.id ≠ x) ∧
    ((users.filter (fun v => v.id == x)).length ≤ 1 →
       (∀ v ∈ users2, v.id ≠ x) ∧
       (∀ rs : List NRReq, (∀ r ∈ rs, ∀ nm em, r ≠ NRReq.createUser nm em) →
          (nrStep (nrRun ⟨users2, ps⟩ rs) NRReq.listUsers).2 =
            NRResp.usersList (nrRun ⟨users2, ps⟩ rs).users ∧
          ∀ v ∈ (nrRun ⟨users2, ps⟩ rs).users, v.id ≠ x)) := by
  obtain ⟨pre, post, e1, e2, e3, e4⟩ := deleteUserHandler_spec users x u users2 hdel
  refine ⟨⟨pre, post, e1, e2, e3, e4⟩, ?_⟩
  intro huniq
  have hpost : ∀ v ∈ post, v.id ≠ x := by
    intro v hv hvx
    rw [e1, List.filter_append] at huniq
    have hpre0 : pre.filter (fun w => w.id == x) = [] := by
      rw [List.filter_eq_nil_iff]
      intro w hw
      simpa using e4 w hw
    rw [hpre0, List.nil_append, List.filter_cons, if_pos (by simp [e3])] at huniq
    have hlen0 : (post.filter (fun w => w.id == x)).length = 0 := by
      simp only [List.length_cons] at huniq
      omega
    have hvmem : v ∈ post.filter (fun w => w.id == x) :=
      List.mem_filter.mpr ⟨hv, by simp [hvx]⟩
    rw [List.length_eq_zero] at hlen0
    simp [hlen0] at hvmem
  have habs : ∀ v ∈ users2, v.id ≠ x := by
    intro v hv
    rw [e2] at hv
    rcases List.mem_append.mp hv with h1 | h1
    · exact e4 v h1
    · exact hpost v h1
  refine ⟨habs, ?_⟩
  intro rs hrs
  exact ⟨rfl, users_absent_run ⟨users2, ps⟩ rs x hrs habs⟩

theorem delete_removes_first_match_witness :
    deleteUserHandler initialUsers "2" =
      some (⟨"2", "Bob", "bob@example.com"⟩,
        [⟨"1", "Alice", "alice@example.com"⟩,
         ⟨"3", "Charlie", "charlie@example.com"⟩]) ∧
    (initialUsers.filter (fun v => v.id == "2")).length ≤ 1 ∧
    ∀ v ∈ [(⟨"1", "Alice", "alice@example.com"⟩ : MockUser),
           ⟨"3", "Charlie", "charlie@example.com"⟩], v.id ≠ "2" :=
  ⟨by decide, by decide,
   ((delete_removes_first_match initialUsers "2"
      ⟨"2", "Bob", "bob@example.com"⟩
      [⟨"1", "Alice", "alice@example.com"⟩,
       ⟨"3", "Charlie", "charlie@example.com"⟩]
      initialPosts (by decide)).2 (by decide)).1⟩

theorem basemodel_tablename_guard_witness :
    "users" ≠ "" ∧
    isError (bmFind (some "users") (fun _ => []) usersPolicy (Value.vnum 1)) = false :=
  ⟨by decide,
   ((basemodel_tablename_guard (fun _ => []) usersPolicy (Value.vnum 1) []
     "id" ClauseOp.peq (Value.vnum 1) 1 true).2 "users" (by decide)).1⟩
